import Mathlib

/-!
A verification development for `tags2name.py`, a utility that renames music
files and their containing folders from embedded metadata tags.

The Python source is shallowly embedded below.  Conventions used throughout:

* Python strings are Lean `String`s; character-level operations are carried
  out on `String.data` (`List Char`).  Regular expressions from the source
  are replaced by equivalent explicit character scans (each is documented at
  its definition).  `\w`, `\d` and `str.strip` are modelled over their ASCII
  ranges; file names are assumed newline-free, as in any realistic run.
* The mutagen tag readers (`ID3`/`FLAC`) are external collaborators: they are
  modelled as an oracle `decode : String → Option RawTags` where `none`
  stands for a raised `MutagenError`.  A decoded value is either a plain
  string or a structured date carrying a year (`PyVal.ts`), mirroring the
  two kinds of values the source extracts (`tags[desc][0]` for list values
  and `tags[desc].text[0]` for ID3 frames; both take the first element, so a
  raw entry is modelled by that element).
* `os.path.isdir` is an oracle `isdir : String → Bool` and `os.rename` is
  recorded as an event rather than performed; a rename attempt that raises
  `OSError` is modelled by an oracle `renameOk`.
* Python code that would raise an uncaught exception (for example calling
  `re.match` on a non-string tag value, or `.group()` on a failed search) is
  modelled by an `Option`-valued result whose `none` means the program
  crashed; every theorem about program outcomes assumes the run produced a
  value.
-/

/-! ## Forbidden characters and scrubbing (`FileTags.FORBIDDEN`, `FileTags.scrub`) -/

/-- The forbidden filename characters `'<>:"/\\|?*\0'` from `FileTags.FORBIDDEN`. -/
def FORBIDDEN : List Char := ['<', '>', ':', '"', '/', '\\', '|', '?', '*', '\x00']

/-- `clean.replace(forbidden_char, '')`: removing every occurrence of one
character from a string is filtering it out of the character list. -/
def removeChar (c : Char) (l : List Char) : List Char :=
  l.filter (fun x => x != c)

/-- The scrub loop of `FileTags.scrub` applied to one string value:
`for forbidden_char in FORBIDDEN: clean = clean.replace(forbidden_char, '')`. -/
def scrubString (s : String) : String :=
  String.mk (FORBIDDEN.foldl (fun acc c => removeChar c acc) s.data)

/-- `noForbidden s` holds when no forbidden character occurs in `s`. -/
def noForbidden (s : String) : Bool :=
  s.data.all (fun c => !FORBIDDEN.contains c)

/-! ## Python string helpers used by `set_tags` -/

/-- Python `str.zfill(width)` on the character list: left-pad with `'0'` up
to `width`; a leading sign character stays in front of the padding.  Note
`''.zfill(2) = "00"`. -/
def zfillList (width : Nat) (l : List Char) : List Char :=
  if l.length ≥ width then l
  else
    let pad := List.replicate (width - l.length) '0'
    match l with
    | [] => pad
    | c :: rest =>
      if c = '+' ∨ c = '-' then c :: (pad ++ rest)
      else pad ++ (c :: rest)

def zfill (width : Nat) (s : String) : String :=
  String.mk (zfillList width s.data)

/-- `re.match(r'(\d+)/', v)` followed by `v = match.group(1)` when it matches:
if `v` starts with a maximal non-empty digit run followed immediately by
`'/'`, keep only that digit run, else keep `v`.  (The regex is anchored at
the start; backtracking to a shorter digit run never helps because the next
character would again be a digit, not `'/'`.) -/
def stripSlash (s : String) : String :=
  let ds := s.data.takeWhile Char.isDigit
  if ds ≠ [] ∧ (s.data.drop ds.length).head? = some '/' then String.mk ds else s

/-! ## Raw tag data and the canonical tag set -/

/-- A decoded tag value: a plain string, or a structured date (for example an
ID3 `TDRC` timestamp) whose `.year` attribute the source reads. -/
inductive PyVal where
  | str (s : String)
  | ts (year : Int)
deriving DecidableEq

/-- A decoded tag mapping, keyed by format-specific tag names.  Keys are
unique in a Python dict; lookup takes the first matching entry. -/
def RawTags := List (String × PyVal)

instance : DecidableEq RawTags := fun a b => List.hasDecEq a b

/-- A canonical tag value inside `FileTags._tags` before normalization:
`null` models Python `None` (the initial value of the year fields). -/
inductive TagVal where
  | str (s : String)
  | ts (year : Int)
  | null
deriving DecidableEq

/-- Python truthiness of a tag value (`None` and `''` are falsy). -/
def pyTruthy : TagVal → Bool
  | .str s => s ≠ ""
  | .ts _ => true
  | .null => false

/-- The alias lists of `FileTags.TAG_TYPES`, one per canonical field. -/
def albumAliases : List String := ["TALB", "ALBUM", "Album", "©alb"]

def artistAliases : List String := ["TPE1", "ARTIST", "Artist", "©ART"]

def albumArtistAliases : List String := ["TPE2", "ALBUMARTIST", "Album Artist", "aART"]

def titleAliases : List String := ["TIT2", "TITLE", "Title", "©nam"]

def trackAliases : List String := ["TRCK", "TRACKNUMBER", "Track", "trkn"]

def discAliases : List String := ["TPOS", "DISCNUMBER", "Disc", "disk"]

def yearAliases : List String := ["TYER", "Year", "DATE", "TDRC", "©day"]

def origYearAliases : List String := ["TORY", "ORIGINALYEAR", "TDOR", "ORIGINALDATE"]

/-- `for desc in TAG_TYPES[tag_name]: if desc in tags: ... break` — the first
alias present in the raw mapping wins. -/
def findAlias (raw : RawTags) (aliases : List String) : Option PyVal :=
  aliases.findSome? (fun a => (List.find? (fun kv => kv.1 == a) raw).map (·.2))

def toTagVal : PyVal → TagVal
  | .str s => .str s
  | .ts y => .ts y

/-- One field of the extraction loop of `set_tags`: take the first present
alias, else keep the initial value from `__init__`. -/
def getField (raw : RawTags) (aliases : List String) (dflt : TagVal) : TagVal :=
  match findAlias raw aliases with
  | some v => toTagVal v
  | none => dflt

/-- The eight `_tags` entries right after the alias-extraction loop of
`set_tags` (string fields start at `''`, year fields at `None`). -/
structure RawFields where
  album : TagVal
  artist : TagVal
  album_artist : TagVal
  title : TagVal
  track_num : TagVal
  disc_num : TagVal
  year : TagVal
  orig_year : TagVal
deriving DecidableEq

def extractFields (raw : RawTags) : RawFields :=
  { album := getField raw albumAliases (.str "")
    artist := getField raw artistAliases (.str "")
    album_artist := getField raw albumArtistAliases (.str "")
    title := getField raw titleAliases (.str "")
    track_num := getField raw trackAliases (.str "")
    disc_num := getField raw discAliases (.str "")
    year := getField raw yearAliases .null
    orig_year := getField raw origYearAliases .null }

/-- The normalized tag set after `set_tags` returns.  The types record what
the code guarantees on a non-crashing run: `track_num`/`disc_num` have gone
through the string formatting steps (so they are strings), and the year
fields are `None` or strings (a structured date was reduced via `.year`). -/
structure FileTags where
  album : TagVal
  artist : TagVal
  album_artist : TagVal
  title : TagVal
  track_num : String
  disc_num : String
  year : Option String
  orig_year : Option String
deriving DecidableEq

/-- The date-formatting step of `set_tags`:
`if not isinstance(v, str): if v is not None: v = str(v.year)`. -/
def normYear : TagVal → Option String
  | .null => none
  | .str s => some s
  | .ts y => some (toString y)

/-- `FileTags.set_tags`: alias extraction, then track/disc/date formatting.
`none` models the `TypeError` Python raises when `re.match` is applied to a
non-string `track_num`/`disc_num` value. -/
def FileTags.set_tags (raw : RawTags) : Option FileTags :=
  let e := extractFields raw
  match e.track_num, e.disc_num with
  | .str tr, .str dn =>
    let tr1 := zfill 2 (stripSlash tr)
    let dn1 := stripSlash dn
    let dn2 := if dn1 = "" then "1" else dn1
    some { album := e.album, artist := e.artist, album_artist := e.album_artist,
           title := e.title, track_num := tr1, disc_num := dn2,
           year := normYear e.year, orig_year := normYear e.orig_year }
  | _, _ => none

/-- The scrub step applied to one `_tags` entry (non-strings are skipped). -/
def scrubVal : TagVal → TagVal
  | .str s => .str (scrubString s)
  | v => v

/-- `FileTags.scrub`: remove forbidden characters from every string value. -/
def FileTags.scrub (ft : FileTags) : FileTags :=
  { album := scrubVal ft.album, artist := scrubVal ft.artist,
    album_artist := scrubVal ft.album_artist, title := scrubVal ft.title,
    track_num := scrubString ft.track_num, disc_num := scrubString ft.disc_num,
    year := ft.year.map scrubString, orig_year := ft.orig_year.map scrubString }

/-- `set_tags` followed by `scrub`, as `rename_file` performs them. -/
def FileTags.set_tags_scrub (raw : RawTags) : Option FileTags :=
  (FileTags.set_tags raw).map FileTags.scrub

/-! ## `rename_file` -/

def SEPARATOR : String := " - "

def VALID_FILE_TYPES : List String := [".mp3", ".flac"]

/-- Python `\w` over ASCII: letters, digits and underscore. -/
def isWordChar (c : Char) : Bool := c.isAlphanum || c == '_'

/-- `re.search(r'.\w+$', file)`: the leftmost position where one arbitrary
character is followed by a non-empty run of word characters reaching the end
of the string.  (`.` does not match a newline; file names are assumed
newline-free, see the header.) -/
def extSearchAux : List Char → Option (List Char)
  | [] => none
  | c :: rest =>
    if rest ≠ [] ∧ rest.all isWordChar then some (c :: rest)
    else extSearchAux rest

def extSearch (file : String) : Option String :=
  (extSearchAux file.data).map String.mk

/-- Outcome classification of one file (third component of `folder_data`). -/
inductive Cls where
  | renamed
  | unchanged
  | missing
deriving DecidableEq

/-- Result of `rename_file`: `skipped` models the `None` return for an
unsupported extension, `outcome` the `(year, album, classification)` triple,
and `crash` an uncaught exception (non-string tag value reaching string
code). -/
inductive RFRes where
  | skipped
  | outcome (year : Option String) (album : String) (c : Cls)
  | crash
deriving DecidableEq

/-- `oldest_year = tags['orig_year']; if not oldest_year: oldest_year = tags['year']`. -/
def oldest_year (orig year : Option String) : Option String :=
  match orig with
  | some s => if s ≠ "" then some s else year
  | none => year

/-- The canonical file name
`artist + ' - ' + album + ' - ' + disc + '-' + track + ' - ' + title + ext`. -/
def canonicalName (artist album disc track title ext : String) : String :=
  artist ++ SEPARATOR ++ album ++ SEPARATOR ++ disc ++ "-" ++ track ++ SEPARATOR ++ title ++ ext

/-- `rename_file(folder, file)`.  The tag readers are the oracle `decode`
(`none` = `MutagenError`).  The second component lists the `os.rename`
calls performed (old path, new path). -/
def rename_file (decode : String → Option RawTags) (folder file : String) :
    RFRes × List (String × String) :=
  let full_path := folder ++ "/" ++ file
  match extSearch file with
  | none => (.skipped, [])
  | some ext =>
    if ext ∈ VALID_FILE_TYPES then
      match decode full_path with
      | none => (.outcome none "" .missing, [])
      | some raw =>
        match FileTags.set_tags_scrub raw with
        | none => (.crash, [])
        | some ft =>
          let artist := if pyTruthy ft.album_artist then ft.album_artist else ft.artist
          if artist = TagVal.str "" ∨ ft.album = TagVal.str "" ∨ ft.disc_num = ""
              ∨ ft.title = TagVal.str "" then
            (.outcome none "" .missing, [])
          else
            match artist, ft.album, ft.title with
            | .str a, .str al, .str ti =>
              let new_name := canonicalName a al ft.disc_num ft.track_num ti ext
              let oy := oldest_year ft.orig_year ft.year
              if file ≠ new_name then
                (.outcome oy al .renamed, [(full_path, folder ++ "/" ++ new_name)])
              else
                (.outcome oy al .unchanged, [])
            | _, _, _ => (.crash, [])
    else (.skipped, [])

/-! ## `scan_album_folder` -/

/-- One accumulated `folder_data` entry: the `(year, album, classification)`
triple returned by `rename_file` for a supported file. -/
structure Datum where
  year : Option String
  album : String
  cls : Cls
deriving DecidableEq

/-- The four numeric counters of `folder_counts`. -/
structure Counts4 where
  found : Nat
  renamed : Nat
  unchanged : Nat
  missing : Nat
deriving DecidableEq

/-- `folder_counts[folder_d[2]] += 1` followed by `folder_counts['found'] += 1`. -/
def bump (c : Cls) (k : Counts4) : Counts4 :=
  match c with
  | .renamed => { k with renamed := k.renamed + 1, found := k.found + 1 }
  | .unchanged => { k with unchanged := k.unchanged + 1, found := k.found + 1 }
  | .missing => { k with missing := k.missing + 1, found := k.found + 1 }

/-- The per-file loop of `scan_album_folder`: run `rename_file` on every
file, skip `None` results, and accumulate the data list, the counters and
the performed file renames.  `none` propagates a crash of `rename_file`. -/
def scanFiles (decode : String → Option RawTags) (folder : String) :
    List String → Option (List Datum × Counts4 × List (String × String))
  | [] => some ([], ⟨0, 0, 0, 0⟩, [])
  | f :: rest =>
    match rename_file decode folder f with
    | (.crash, _) => none
    | (.skipped, _) => scanFiles decode folder rest
    | (.outcome y a c, ops) =>
      match scanFiles decode folder rest with
      | none => none
      | some (data, k, ops2) => some (⟨y, a, c⟩ :: data, bump c k, ops ++ ops2)

/-- Python `str.replace(pat, rep)` over character lists: leftmost,
non-overlapping, scanning left to right.  The `fuel` argument is the length
of the scanned list, which bounds the recursion (structurally, so that
concrete runs reduce inside the kernel). -/
def isChunkAt : List Char → List Char → Bool
  | [], _ => true
  | _ :: _, [] => false
  | p :: ps, c :: cs => p == c && isChunkAt ps cs

def replaceLoop (pat rep : List Char) : Nat → List Char → List Char
  | _, [] => []
  | 0, l => l
  | fuel + 1, c :: cs =>
    if isChunkAt pat (c :: cs) then rep ++ replaceLoop pat rep fuel (cs.drop (pat.length - 1))
    else c :: replaceLoop pat rep fuel cs

def pyReplace (s pat rep : String) : String :=
  String.mk (replaceLoop pat.data rep.data s.data.length s.data)

/-- Path separators recognised by the folder-name regexes (`[\\/]`). -/
def isSlashChar (c : Char) : Bool := c == '/' || c == '\\'

/-- `re.search(r'[^\\/]+[\\/]?$', folder).group()`: the last path component,
keeping one trailing separator if present; `none` when the search fails (all
separators or empty), in which case `.group()` raises. -/
def lastComponentMatch (s : String) : Option String :=
  let cs := s.data
  let last := cs.getLastD ' '
  let body := if isSlashChar last then cs.dropLast else cs
  let trail : List Char := if isSlashChar last then [last] else []
  let comp := (body.reverse.takeWhile (fun x => !isSlashChar x)).reverse
  if comp = [] then none else some (String.mk (comp ++ trail))

/-- `re.search(r'(.*?)\.+$', base_dir)` and taking `group(1)` when it
matches: remove a maximal run of trailing dots, if any. -/
def stripTrailingDots (s : String) : String :=
  let dots := s.data.reverse.takeWhile (fun c => c == '.')
  if dots = [] then s else String.mk (s.data.take (s.data.length - dots.length))

/-- Python whitespace stripped by `str.strip()` (ASCII range). -/
def isPySpace (c : Char) : Bool :=
  c == ' ' || c == '\t' || c == '\n' || c == '\r' || c == '\x0b' || c == '\x0c'

def pyStrip (s : String) : String :=
  String.mk (((s.data.dropWhile isPySpace).reverse.dropWhile isPySpace).reverse)

/-- The collision-probing `while` loop of `scan_album_folder`:

    while os.path.isdir(try_dir) and counter < 100:
        if try_dir == folder: break
        try_dir = base_dir + ' (' + str(counter) + ')'
        counter += 1

`fuel` equals `100 - counter`, making the recursion structural; the loop is
entered with `counter = 2`, hence `fuel = 98`. -/
def probeLoop (isdir : String → Bool) (folder base : String) :
    Nat → Nat → String → String
  | 0, _, tryDir => tryDir
  | fuel + 1, counter, tryDir =>
    if isdir tryDir then
      if tryDir = folder then tryDir
      else probeLoop isdir folder base fuel (counter + 1) (base ++ " (" ++ toString counter ++ ")")
    else tryDir

/-- The folder-consolidation tail of `scan_album_folder`, applied to the
accumulated `folder_data`.  Result `some fr` is the final value of
`folder_counts['folder_rename']` (`none` = the initial `''`); the outer
`none` models the `AttributeError` crash when the parent-path search fails.
(The identical `if` at the top of the source function ranges over the empty
list and does nothing; it is omitted.) -/
def consolidateFolder (isdir : String → Bool) (folder : String) (data : List Datum) :
    Option (Option (String × String)) :=
  match data with
  | [] => some none
  | d :: rest =>
    if d.year.getD "" ≠ "" ∧ d.album ≠ ""
        ∧ ∀ x ∈ d :: rest, x.year = d.year ∧ x.album = d.album then
      let folder_name := "[" ++ d.year.getD "" ++ "]" ++ " " ++ d.album
      match lastComponentMatch folder with
      | none => none
      | some comp =>
        let parent_path := pyReplace folder comp ""
        if folder ≠ "." ∧ folder ≠ parent_path ++ folder_name then
          let base_dir := pyStrip (stripTrailingDots (parent_path ++ folder_name))
          let try_dir := probeLoop isdir folder base_dir 98 2 base_dir
          if try_dir ≠ folder then some (some (folder, try_dir)) else some none
        else some none
    else some none

/-- The `folder_counts` dict at the end of `scan_album_folder`. -/
structure FolderCounts where
  found : Nat
  renamed : Nat
  unchanged : Nat
  missing : Nat
  folder_rename : Option (String × String)
deriving DecidableEq

/-- `scan_album_folder(folder, file_list)`. -/
def scan_album_folder (isdir : String → Bool) (decode : String → Option RawTags)
    (folder : String) (file_list : List String) :
    Option (FolderCounts × List (String × String)) :=
  match scanFiles decode folder file_list with
  | none => none
  | some (data, k, ops) =>
    match consolidateFolder isdir folder data with
    | none => none
    | some fr => some (⟨k.found, k.renamed, k.unchanged, k.missing, fr⟩, ops)

/-! ## `tags2name` (the walk and the deferred folder renames)

`walklevel` wraps `os.walk`: the sequence of `(root, files)` pairs it yields
is purely a property of the filesystem, so the run is modelled as a function
of that discovery-ordered sequence `dirs`. -/

/-- The aggregate `result` dict of `tags2name`. -/
structure RunResult where
  found : Nat
  renamed : Nat
  unchanged : Nat
  missing : Nat
  renamed_folders : List (String × String)
deriving DecidableEq

/-- Observable filesystem actions of a run, in program order. -/
inductive Event where
  | fileRename (old new : String)
  | folderRename (old new : String)
  | folderRenameError (old new : String)
deriving DecidableEq

/-- One iteration of the deferred-rename loop: `os.rename(ren[0], ren[1])`
succeeds, or raises `OSError` and is reported (oracle `renameOk`). -/
def applyPlan (renameOk : String → String → Bool) (p : String × String) : Event :=
  if renameOk p.1 p.2 then .folderRename p.1 p.2 else .folderRenameError p.1 p.2

/-- Phase 1 of `tags2name`: the `for root, _, files in walklevel(...)` loop.
Counters accumulate, and each non-empty `folder_rename` is appended to
`result['renamed_folders']` in visitation order.  The trace lists the file
renames performed during the walk. -/
def runPhase1 (isdir : String → Bool) (decode : String → Option RawTags) :
    List (String × List String) → Option (RunResult × List (String × String))
  | [] => some (⟨0, 0, 0, 0, []⟩, [])
  | (root, files) :: rest =>
    match scan_album_folder isdir decode root files with
    | none => none
    | some (counts, ops) =>
      match runPhase1 isdir decode rest with
      | none => none
      | some (res, tr) =>
        some (⟨counts.found + res.found, counts.renamed + res.renamed,
               counts.unchanged + res.unchanged, counts.missing + res.missing,
               (match counts.folder_rename with
                | some p => [p]
                | none => []) ++ res.renamed_folders⟩,
              ops ++ tr)

/-- `tags2name(recursion_level)`: phase 1 walks and renames files while
queueing folder plans; phase 2 (`for ren in reversed(result['renamed_folders'])`)
then attempts the queued folder renames, most recently discovered first. -/
def tags2name (isdir : String → Bool) (decode : String → Option RawTags)
    (renameOk : String → String → Bool) (dirs : List (String × List String)) :
    Option (RunResult × List Event) :=
  match runPhase1 isdir decode dirs with
  | none => none
  | some (res, ops) =>
    some (res, ops.map (fun p => Event.fileRename p.1 p.2)
                ++ res.renamed_folders.reverse.map (applyPlan renameOk))

/-- The folder-rename plans a run discovers, in visitation order — the
reference list that `result['renamed_folders']` is proved equal to. -/
def discoveredPlans (isdir : String → Bool) (decode : String → Option RawTags) :
    List (String × List String) → Option (List (String × String))
  | [] => some []
  | (root, files) :: rest =>
    match scan_album_folder isdir decode root files with
    | none => none
    | some (counts, _) =>
      match discoveredPlans isdir decode rest with
      | none => none
      | some ps =>
        some ((match counts.folder_rename with
               | some p => [p]
               | none => []) ++ ps)

/-- Specification-side reformulation of the probing loop (from the spec's
words): walk the candidate list and return the first entry that either has
no directory at its path or is the folder being renamed; if every candidate
is occupied, the last one is kept. -/
def firstStopped (stop : String → Bool) : List String → String
  | [] => ""
  | [x] => x
  | x :: y :: rest => if stop x then x else firstStopped stop (y :: rest)

/-- The candidate-suffix names `base + ' (' + str(k) + ')'`. -/
def suffixCand (base : String) (k : Nat) : String :=
  base ++ " (" ++ toString k ++ ")"

/-! ## Cleanliness predicates and concrete sample data -/

/-- A tag value free of forbidden characters (non-strings vacuously so). -/
def cleanVal : TagVal → Bool
  | .str s => noForbidden s
  | _ => true

def cleanOpt : Option String → Bool
  | some s => noForbidden s
  | none => true

/-- Every string-valued field of the tag set is free of forbidden characters. -/
def cleanTags (g : FileTags) : Bool :=
  cleanVal g.album && cleanVal g.artist && cleanVal g.album_artist && cleanVal g.title
    && noForbidden g.track_num && noForbidden g.disc_num
    && cleanOpt g.year && cleanOpt g.orig_year

/-- Sample decoded tags: a fully tagged track. -/
def rawFull : RawTags :=
  [("TPE1", PyVal.str "Art"), ("TALB", PyVal.str "Alb"), ("TIT2", PyVal.str "Tit"),
   ("TRCK", PyVal.str "1"), ("TYER", PyVal.str "2000")]

/-- Sample decoded tags with no title (and no track/disc/year). -/
def rawNoTitle : RawTags := [("TPE1", PyVal.str "A"), ("TALB", PyVal.str "B")]

/-- Sample decoded tags whose canonical name can match an existing file name. -/
def rawSelf : RawTags :=
  [("TPE1", PyVal.str "A"), ("TALB", PyVal.str "B"), ("TIT2", PyVal.str "T"),
   ("TRCK", PyVal.str "1")]

/-- The normalized, scrubbed tag set produced by `rawNoTitle`. -/
def ftNoTitle : FileTags :=
  ⟨.str "B", .str "A", .str "", .str "", "00", "1", none, none⟩

/-- The normalized, scrubbed tag set produced by `rawSelf`. -/
def ftSelf : FileTags :=
  ⟨.str "B", .str "A", .str "", .str "T", "01", "1", none, none⟩

/-- A tag reader that decodes every file to `rawFull`. -/
def decodeFull : String → Option RawTags := fun _ => some rawFull

/-- A filesystem on which no candidate directory exists. -/
def isdirNone : String → Bool := fun _ => false

/-- A filesystem on which the first candidate folder name is occupied. -/
def isdirBusy : String → Bool := fun s => s == "./[2000] Alb"

/-- A filesystem on which every folder rename succeeds. -/
def renameOkAll : String → String → Bool := fun _ _ => true

/-- A two-directory walk (parent before child), as `walklevel` would yield. -/
def dirsTwo : List (String × List String) :=
  [("./A", ["f.mp3"]), ("./A/B", ["g.mp3"])]

/-- The run result of `tags2name` on `dirsTwo` with `decodeFull`. -/
def resTwo : RunResult :=
  ⟨2, 2, 0, 0, [("./A", "./[2000] Alb"), ("./A/B", "./A/[2000] Alb")]⟩

/-- The event trace of `tags2name` on `dirsTwo` with `decodeFull`. -/
def traceTwo : List Event :=
  [.fileRename "./A/f.mp3" "./A/Art - Alb - 1-01 - Tit.mp3",
   .fileRename "./A/B/g.mp3" "./A/B/Art - Alb - 1-01 - Tit.mp3",
   .folderRename "./A/B" "./A/[2000] Alb",
   .folderRename "./A" "./[2000] Alb"]

/-- The `folder_data` list collected when scanning `"./X" ["a.mp3"]` with `decodeFull`. -/
def dataOne : List Datum := [⟨some "2000", "Alb", .renamed⟩]

/-! ## Helper lemmas about scrubbing -/

theorem foldl_removeChar (cs : List Char) (l : List Char) :
    cs.foldl (fun acc c => removeChar c acc) l = l.filter (fun x => !cs.contains x) := by
  induction cs generalizing l with
  | nil =>
    simp [List.filter_eq_self]
  | cons c cs ih =>
    rw [List.foldl_cons, ih, removeChar, List.filter_filter]
    refine List.filter_congr ?_
    intro x _
    rw [List.contains_cons]
    cases hxc : x == c <;> cases hcs : cs.contains x <;> simp [bne, hxc, hcs]

theorem scrubString_data (s : String) :
    (scrubString s).data = s.data.filter (fun x => !FORBIDDEN.contains x) := by
  simp [scrubString, foldl_removeChar]

theorem noForbidden_scrubString (s : String) : noForbidden (scrubString s) = true := by
  rw [noForbidden, List.all_eq_true]
  intro c hc
  rw [scrubString_data] at hc
  exact (List.mem_filter.mp hc).2

theorem scrubString_idem (s : String) : scrubString (scrubString s) = scrubString s := by
  apply String.ext
  rw [scrubString_data, scrubString_data, List.filter_filter]
  refine List.filter_congr ?_
  intro x _
  cases h : FORBIDDEN.contains x <;> simp [h]

theorem noForbidden_append (s t : String) (hs : noForbidden s = true)
    (ht : noForbidden t = true) : noForbidden (s ++ t) = true := by
  rw [noForbidden] at *
  rw [String.data_append, List.all_append, hs, ht]
  rfl

theorem scrubVal_str_clean (v : TagVal) (s : String) (h : scrubVal v = .str s) :
    noForbidden s = true := by
  cases v with
  | str t =>
    rw [scrubVal] at h
    cases h
    exact noForbidden_scrubString t
  | ts y => simp [scrubVal] at h
  | null => simp [scrubVal] at h

/-! ## Helper lemmas about `zfill` and `set_tags` -/

theorem zfillList_two_ne_nil (l : List Char) : zfillList 2 l ≠ [] := by
  cases l with
  | nil => decide
  | cons c rest =>
    simp only [zfillList]
    split
    · simp
    · split
      · simp
      · simp [List.append_eq_nil]

theorem zfill_two_ne_empty (s : String) : zfill 2 s ≠ "" := by
  intro h
  have hd := congrArg String.data h
  rw [zfill] at hd
  exact zfillList_two_ne_nil s.data hd

theorem set_tags_inv (raw : RawTags) (ft : FileTags)
    (h : FileTags.set_tags raw = some ft) :
    ∃ tr dn, (extractFields raw).track_num = .str tr ∧ (extractFields raw).disc_num = .str dn
      ∧ ft.album = (extractFields raw).album ∧ ft.artist = (extractFields raw).artist
      ∧ ft.album_artist = (extractFields raw).album_artist
      ∧ ft.title = (extractFields raw).title
      ∧ ft.track_num = zfill 2 (stripSlash tr)
      ∧ ft.disc_num = (if stripSlash dn = "" then "1" else stripSlash dn)
      ∧ ft.year = normYear (extractFields raw).year
      ∧ ft.orig_year = normYear (extractFields raw).orig_year := by
  rw [FileTags.set_tags] at h
  split at h
  · rename_i tr dn htr hdn
    cases h
    exact ⟨tr, dn, htr, hdn, rfl, rfl, rfl, rfl, rfl, rfl, rfl, rfl⟩
  · cases h

theorem set_tags_track_ne (raw : RawTags) (ft : FileTags)
    (h : FileTags.set_tags raw = some ft) : ft.track_num ≠ "" := by
  obtain ⟨tr, dn, _, _, _, _, _, _, htr, _, _, _⟩ := set_tags_inv raw ft h
  rw [htr]
  exact zfill_two_ne_empty _

theorem set_tags_disc_ne (raw : RawTags) (ft : FileTags)
    (h : FileTags.set_tags raw = some ft) : ft.disc_num ≠ "" := by
  obtain ⟨tr, dn, _, _, _, _, _, _, _, hdn, _, _⟩ := set_tags_inv raw ft h
  rw [hdn]
  split
  · simp
  · assumption

theorem set_tags_scrub_inv (raw : RawTags) (ft : FileTags)
    (h : FileTags.set_tags_scrub raw = some ft) :
    ∃ ft0, FileTags.set_tags raw = some ft0 ∧ ft = FileTags.scrub ft0 := by
  rw [FileTags.set_tags_scrub] at h
  cases h0 : FileTags.set_tags raw with
  | none => rw [h0] at h; cases h
  | some ft0 =>
    rw [h0] at h
    cases h
    exact ⟨ft0, rfl, rfl⟩

/-! ## Helper lemmas about `rename_file` and `scanFiles` -/

theorem rename_file_missing_shape (decode : String → Option RawTags) (folder f : String)
    (y : Option String) (a : String) (ops : List (String × String))
    (h : rename_file decode folder f = (.outcome y a .missing, ops)) :
    y = none ∧ a = "" ∧ ops = [] := by
  rw [rename_file] at h
  dsimp only at h
  repeat' split at h
  all_goals injection h with h1 h2
  all_goals injection h1
  all_goals simp_all

theorem scanFiles_missing_inv (decode : String → Option RawTags) (folder : String)
    (files : List String) :
    ∀ data k ops, scanFiles decode folder files = some (data, k, ops) →
      ∀ d ∈ data, d.cls = .missing → d.year = none ∧ d.album = "" := by
  induction files with
  | nil =>
    intro data k ops h d hd _
    rw [scanFiles] at h
    injection h with h
    injection h with hdata h
    subst hdata
    cases hd
  | cons f rest ih =>
    intro data k ops h d hd hcls
    rw [scanFiles] at h
    cases hr : rename_file decode folder f with
    | mk res ops1 =>
      rw [hr] at h
      cases res with
      | crash => cases h
      | skipped => exact ih data k ops h d hd hcls
      | outcome y a c =>
        cases hrest : scanFiles decode folder rest with
        | none => rw [hrest] at h; cases h
        | some v =>
          obtain ⟨data2, k2, ops2⟩ := v
          rw [hrest] at h
          injection h with h
          injection h with hdata h
          injection h with hk hops
          subst hdata
          cases hd with
          | head =>
            have hc : c = Cls.missing := hcls
            subst hc
            obtain ⟨h1, h2, -⟩ := rename_file_missing_shape decode folder f y a ops1 hr
            exact ⟨h1, h2⟩
          | tail _ hmem => exact ih data2 k2 ops2 hrest d hmem hcls

theorem scanFiles_counts (decode : String → Option RawTags) (folder : String)
    (files : List String) :
    ∀ data k ops, scanFiles decode folder files = some (data, k, ops) →
      k.found = k.renamed + k.unchanged + k.missing := by
  induction files with
  | nil =>
    intro data k ops h
    rw [scanFiles] at h
    injection h with h
    injection h with hdata h
    injection h with hk hops
    subst hk
    rfl
  | cons f rest ih =>
    intro data k ops h
    rw [scanFiles] at h
    cases hr : rename_file decode folder f with
    | mk res ops1 =>
      rw [hr] at h
      cases res with
      | crash => cases h
      | skipped => exact ih data k ops h
      | outcome y a c =>
        cases hrest : scanFiles decode folder rest with
        | none => rw [hrest] at h; cases h
        | some v =>
          obtain ⟨data2, k2, ops2⟩ := v
          rw [hrest] at h
          injection h with h
          injection h with hdata h
          injection h with hk hops
          subst hk
          have ih2 := ih data2 k2 ops2 hrest
          cases c <;> simp only [bump] <;> omega

/-! ## Helper lemmas about `scan_album_folder` and `consolidateFolder` -/

theorem scan_album_folder_parts (isdir : String → Bool) (decode : String → Option RawTags)
    (folder : String) (files : List String) (counts : FolderCounts)
    (ops : List (String × String))
    (h : scan_album_folder isdir decode folder files = some (counts, ops)) :
    ∃ data k, scanFiles decode folder files = some (data, k, ops)
      ∧ consolidateFolder isdir folder data = some counts.folder_rename
      ∧ counts.found = k.found ∧ counts.renamed = k.renamed
      ∧ counts.unchanged = k.unchanged ∧ counts.missing = k.missing := by
  rw [scan_album_folder] at h
  cases hs : scanFiles decode folder files with
  | none => rw [hs] at h; cases h
  | some v =>
    obtain ⟨data, k, ops1⟩ := v
    rw [hs] at h
    dsimp only at h
    cases hc : consolidateFolder isdir folder data with
    | none => rw [hc] at h; cases h
    | some fr =>
      rw [hc] at h
      injection h with h
      injection h with hcounts hops
      subst hops
      subst hcounts
      exact ⟨data, k, rfl, hc, rfl, rfl, rfl, rfl⟩

theorem consolidateFolder_some_plan (isdir : String → Bool) (folder : String)
    (data : List Datum) (p : String × String)
    (h : consolidateFolder isdir folder data = some (some p)) :
    ∃ d rest, data = d :: rest
      ∧ d.year.getD "" ≠ "" ∧ d.album ≠ ""
      ∧ (∀ x ∈ data, x.year = d.year ∧ x.album = d.album)
      ∧ p.1 = folder ∧ p.2 ≠ folder := by
  rw [consolidateFolder.eq_def] at h
  cases data with
  | nil =>
    dsimp only at h
    injection h with h
    cases h
  | cons d rest =>
    dsimp only at h
    split at h
    · rename_i hcond
      cases hlc : lastComponentMatch folder with
      | none => rw [hlc] at h; cases h
      | some comp =>
        rw [hlc] at h
        dsimp only at h
        split at h
        · split at h
          · rename_i hne
            injection h with h
            injection h with h
            subst h
            exact ⟨d, rest, rfl, hcond.1, hcond.2.1, hcond.2.2, rfl, hne⟩
          · injection h with h; cases h
        · injection h with h; cases h
    · injection h with h
      cases h

theorem consolidateFolder_dot (isdir : String → Bool) (data : List Datum)
    (fr : Option (String × String)) (h : consolidateFolder isdir "." data = some fr) :
    fr = none := by
  rw [consolidateFolder.eq_def] at h
  cases data with
  | nil =>
    dsimp only at h
    injection h with h
    exact h.symm
  | cons d rest =>
    dsimp only at h
    split at h
    · cases hlc : lastComponentMatch "." with
      | none => rw [hlc] at h; cases h
      | some comp =>
        rw [hlc] at h
        dsimp only at h
        rw [if_neg (fun hco => hco.1 rfl)] at h
        injection h with h
        exact h.symm
    · injection h with h
      exact h.symm

/-! ## The collision-probing loop, characterized -/

theorem probeLoop_eq_firstStopped (isdir : String → Bool) (folder base : String) :
    ∀ fuel counter tryDir,
      probeLoop isdir folder base fuel counter tryDir
        = firstStopped (fun c => !isdir c || c == folder)
            (tryDir :: (List.range' counter fuel).map (suffixCand base)) := by
  intro fuel
  induction fuel with
  | zero =>
    intro counter t
    rw [probeLoop, List.range']
    rw [List.map_nil, firstStopped]
  | succ n ih =>
    intro counter t
    have hr : List.range' counter (n + 1) = counter :: List.range' (counter + 1) n := rfl
    rw [probeLoop, hr, List.map_cons, firstStopped]
    cases hb : isdir t
    · simp [hb]
    · by_cases hf : t = folder
      · simp [hb, hf]
      · simp [hb, hf, ih, suffixCand]

/-! ## Helper lemmas about `runPhase1` -/

theorem runPhase1_plans (isdir : String → Bool) (decode : String → Option RawTags)
    (dirs : List (String × List String)) :
    ∀ res tr, runPhase1 isdir decode dirs = some (res, tr) →
      discoveredPlans isdir decode dirs = some res.renamed_folders := by
  induction dirs with
  | nil =>
    intro res tr h
    rw [runPhase1] at h
    injection h with h
    injection h with hres htr
    rw [discoveredPlans, ← hres]
  | cons dir rest ih =>
    intro res tr h
    obtain ⟨root, files⟩ := dir
    rw [runPhase1] at h
    cases hscan : scan_album_folder isdir decode root files with
    | none => rw [hscan] at h; cases h
    | some v =>
      obtain ⟨counts, ops⟩ := v
      rw [hscan] at h
      cases hrest : runPhase1 isdir decode rest with
      | none => rw [hrest] at h; cases h
      | some w =>
        obtain ⟨res2, tr2⟩ := w
        rw [hrest] at h
        injection h with h
        injection h with hres htr
        rw [discoveredPlans, hscan, ih res2 tr2 hrest, ← hres]

theorem runPhase1_counts (isdir : String → Bool) (decode : String → Option RawTags)
    (dirs : List (String × List String)) :
    ∀ res tr, runPhase1 isdir decode dirs = some (res, tr) →
      res.found = res.renamed + res.unchanged + res.missing := by
  induction dirs with
  | nil =>
    intro res tr h
    rw [runPhase1] at h
    injection h with h
    injection h with hres htr
    rw [← hres]
    rfl
  | cons dir rest ih =>
    intro res tr h
    obtain ⟨root, files⟩ := dir
    rw [runPhase1] at h
    cases hscan : scan_album_folder isdir decode root files with
    | none => rw [hscan] at h; cases h
    | some v =>
      obtain ⟨counts, ops⟩ := v
      rw [hscan] at h
      cases hrest : runPhase1 isdir decode rest with
      | none => rw [hrest] at h; cases h
      | some w =>
        obtain ⟨res2, tr2⟩ := w
        rw [hrest] at h
        injection h with h
        injection h with hres htr
        obtain ⟨data, k, hsf, hcons, hf, hr, hu, hm⟩ :=
          scan_album_folder_parts isdir decode root files counts ops hscan
        have hk := scanFiles_counts decode root files data k ops hsf
        have h2 := ih res2 tr2 hrest
        rw [← hres]
        simp only [hf, hr, hu, hm]
        omega

/-! ## Claim theorems -/

/-- C2 (counterexample): the claim says an empty `track_num` remains empty
after normalization; in the code `set_tags` applies `.zfill(2)`
unconditionally and Python `''.zfill(2)` is `"00"`, so an empty `track_num`
becomes `"00"`, not `""`. -/
theorem track_num_empty_counterexample :
    (FileTags.set_tags [("TRCK", PyVal.str "")]).map FileTags.track_num = some "00"
    ∧ some "00" ≠ some "" := by
  exact ⟨by decide, by decide⟩

/-- C2 (amended): track_num normalization is total: input `"3/12"` yields
`"03"`, input `"7"` yields `"07"`, and the empty string yields `"00"`
(zfill pads it to the field width), so an absent track number does not stay
empty. -/
theorem track_num_normalization_total :
    (FileTags.set_tags [("TRCK", PyVal.str "3/12")]).map FileTags.track_num = some "03"
    ∧ (FileTags.set_tags [("TRCK", PyVal.str "7")]).map FileTags.track_num = some "07"
    ∧ (FileTags.set_tags [("TRCK", PyVal.str "")]).map FileTags.track_num = some "00" := by
  exact ⟨by decide, by decide, by decide⟩

/-- C5 (counterexample): the claim says `track_num` is a non-empty numeric
string after normalization and scrubbing unless the source was absent; for
the present source value `"??"`, normalization keeps `"??"` (length 2, no
padding) and scrubbing then deletes both characters, leaving the empty
string. -/
theorem scrub_can_empty_track_counterexample :
    (FileTags.set_tags_scrub [("TRCK", PyVal.str "??")]).map FileTags.track_num = some ""
    ∧ (List.find? (fun kv => kv.1 == "TRCK") [("TRCK", PyVal.str "??")]).isSome = true := by
  exact ⟨by decide, by decide⟩

/-- C5 (amended): after `set_tags`, `track_num` and `disc_num` are non-empty
strings, with `disc_num` defaulting to `"1"` when no disc alias is present
in the raw mapping; scrubbing then removes all forbidden characters from
every string-valued field (which can empty or de-numericize a non-numeric
source value), and no string-valued field contains a forbidden character
after scrubbing. -/
theorem set_tags_scrub_invariants (raw : RawTags) (ft : FileTags)
    (h : FileTags.set_tags raw = some ft) :
    ft.track_num ≠ "" ∧ ft.disc_num ≠ ""
    ∧ ((∀ k ∈ discAliases, List.find? (fun kv => kv.1 == k) raw = none) →
        ft.disc_num = "1")
    ∧ cleanTags (FileTags.scrub ft) = true := by
  refine ⟨set_tags_track_ne raw ft h, set_tags_disc_ne raw ft h, ?_, ?_⟩
  · intro habs
    obtain ⟨tr, dn, htr, hdn, _, _, _, _, _, hdisc, _, _⟩ := set_tags_inv raw ft h
    have hfa : findAlias raw discAliases = none := by
      rw [findAlias, List.findSome?_eq_none_iff]
      intro a ha
      rw [habs a ha]
      rfl
    have hget : (extractFields raw).disc_num = .str "" := by
      show getField raw discAliases (.str "") = .str ""
      rw [getField, hfa]
    rw [hget] at hdn
    injection hdn with hdn
    rw [hdisc, ← hdn]
    decide
  · have h1 : ∀ v : TagVal, cleanVal (scrubVal v) = true := by
      intro v
      cases v <;> simp [scrubVal, cleanVal, noForbidden_scrubString]
    have h2 : ∀ o : Option String, cleanOpt (o.map scrubString) = true := by
      intro o
      cases o <;> simp [cleanOpt, noForbidden_scrubString]
    simp [cleanTags, FileTags.scrub, h1, h2, noForbidden_scrubString]

/-- C6: scrubbing is idempotent, and a computed canonical file name —
built by `rename_file` from scrubbed components, the constant separators
and a supported extension — contains no forbidden character. -/
theorem scrub_idem_and_name_clean :
    (∀ s, scrubString (scrubString s) = scrubString s)
    ∧ (∀ (raw : RawTags) (ft : FileTags) (a al ti ext : String),
        FileTags.set_tags_scrub raw = some ft →
        ext ∈ VALID_FILE_TYPES →
        (ft.album_artist = TagVal.str a ∨ ft.artist = TagVal.str a) →
        ft.album = TagVal.str al → ft.title = TagVal.str ti →
        noForbidden (canonicalName a al ft.disc_num ft.track_num ti ext) = true) := by
  refine ⟨scrubString_idem, ?_⟩
  intro raw ft a al ti ext hft hext ha hal hti
  obtain ⟨ft0, h0, hscrub⟩ := set_tags_scrub_inv raw ft hft
  subst hscrub
  have hA : noForbidden a = true := by
    cases ha with
    | inl hcase => exact scrubVal_str_clean ft0.album_artist a hcase
    | inr hcase => exact scrubVal_str_clean ft0.artist a hcase
  have hAl : noForbidden al = true := scrubVal_str_clean ft0.album al hal
  have hTi : noForbidden ti = true := scrubVal_str_clean ft0.title ti hti
  have hD : noForbidden (FileTags.scrub ft0).disc_num = true := noForbidden_scrubString _
  have hT : noForbidden (FileTags.scrub ft0).track_num = true := noForbidden_scrubString _
  have hSep : noForbidden SEPARATOR = true := by decide
  have hDash : noForbidden "-" = true := by decide
  have hExt : noForbidden ext = true := by
    simp only [VALID_FILE_TYPES, List.mem_cons, List.mem_singleton] at hext
    rcases hext with hcase | hcase | hcase
    · rw [hcase]; decide
    · rw [hcase]; decide
    · cases hcase
  rw [canonicalName]
  repeat'
    first
    | assumption
    | apply noForbidden_append

/-- C4: for a file with a supported extension whose tags decode
successfully (and normalize without crashing), the artist used by
`rename_file` is `album_artist` when that is non-empty and `artist`
otherwise, and the outcome is the `missing` triple with no rename performed
exactly when the effective artist, album, disc_num or title is empty after
normalization and scrubbing. -/
theorem rename_file_missing_iff (decode : String → Option RawTags)
    (folder file ext : String) (raw : RawTags) (ft : FileTags) (aa ar al ti : String)
    (hext : extSearch file = some ext) (hval : ext ∈ VALID_FILE_TYPES)
    (hdec : decode (folder ++ "/" ++ file) = some raw)
    (hft : FileTags.set_tags_scrub raw = some ft)
    (haa : ft.album_artist = TagVal.str aa) (har : ft.artist = TagVal.str ar)
    (hal : ft.album = TagVal.str al) (hti : ft.title = TagVal.str ti) :
    ((if pyTruthy ft.album_artist then ft.album_artist else ft.artist)
        = TagVal.str (if aa ≠ "" then aa else ar))
    ∧ ((rename_file decode folder file = (RFRes.outcome none "" Cls.missing, []))
        ↔ ((if aa ≠ "" then aa else ar) = "" ∨ al = "" ∨ ft.disc_num = "" ∨ ti = "")) := by
  have heff : (if pyTruthy ft.album_artist then ft.album_artist else ft.artist)
      = TagVal.str (if aa ≠ "" then aa else ar) := by
    rw [haa, har]
    by_cases hcase : aa = ""
    · simp [pyTruthy, hcase]
    · simp [pyTruthy, hcase]
  refine ⟨heff, ?_⟩
  rw [rename_file, hext]
  dsimp only
  rw [if_pos hval, hdec]
  dsimp only
  rw [hft]
  dsimp only
  rw [heff, hal, hti]
  simp only [TagVal.str.injEq]
  by_cases hcond : (if aa ≠ "" then aa else ar) = "" ∨ al = "" ∨ ft.disc_num = "" ∨ ti = ""
  · rw [if_pos hcond]
    exact iff_of_true rfl hcond
  · rw [if_neg hcond]
    constructor
    · intro hres
      repeat' split at hres
      all_goals simp at hres
    · intro hcontra
      exact absurd hcontra hcond

/-- C8: a file whose computed canonical name equals its current name is
classified `unchanged` and no filesystem rename call is recorded, so the
filesystem is untouched for that file. -/
theorem rename_file_unchanged_no_op (decode : String → Option RawTags)
    (folder file ext : String) (raw : RawTags) (ft : FileTags) (aa ar al ti : String)
    (hext : extSearch file = some ext) (hval : ext ∈ VALID_FILE_TYPES)
    (hdec : decode (folder ++ "/" ++ file) = some raw)
    (hft : FileTags.set_tags_scrub raw = some ft)
    (haa : ft.album_artist = TagVal.str aa) (har : ft.artist = TagVal.str ar)
    (hal : ft.album = TagVal.str al) (hti : ft.title = TagVal.str ti)
    (hnm : ¬((if aa ≠ "" then aa else ar) = "" ∨ al = "" ∨ ft.disc_num = "" ∨ ti = ""))
    (hname : file = canonicalName (if aa ≠ "" then aa else ar) al ft.disc_num ft.track_num ti ext) :
    rename_file decode folder file
      = (RFRes.outcome (oldest_year ft.orig_year ft.year) al Cls.unchanged, []) := by
  have heff : (if pyTruthy ft.album_artist then ft.album_artist else ft.artist)
      = TagVal.str (if aa ≠ "" then aa else ar) := by
    rw [haa, har]
    by_cases hcase : aa = ""
    · simp [pyTruthy, hcase]
    · simp [pyTruthy, hcase]
  rw [rename_file, hext]
  dsimp only
  rw [if_pos hval, hdec]
  dsimp only
  rw [hft]
  dsimp only
  rw [heff, hal, hti]
  simp only [TagVal.str.injEq]
  rw [if_neg hnm]
  rw [if_neg (fun hne => hne hname)]

/-- C3: a folder rename is queued only when the (year, album) pairs of the
non-`missing` files form a non-empty set of identical pairs with non-empty
year and album; and any two non-`missing` files with differing pairs
suppress the folder rename entirely. -/
theorem scan_consolidation_requires_agreement (isdir : String → Bool)
    (decode : String → Option RawTags) (folder : String) (files : List String)
    (data : List Datum) (k : Counts4) (ops ops2 : List (String × String))
    (counts : FolderCounts)
    (hsf : scanFiles decode folder files = some (data, k, ops))
    (hscan : scan_album_folder isdir decode folder files = some (counts, ops2)) :
    (∀ p, counts.folder_rename = some p →
      data.filter (fun d => d.cls != Cls.missing) ≠ []
      ∧ ∃ y a, y ≠ "" ∧ a ≠ ""
          ∧ ∀ d ∈ data.filter (fun d => d.cls != Cls.missing),
              d.year = some y ∧ d.album = a)
    ∧ ((∃ d1 ∈ data, ∃ d2 ∈ data, d1.cls ≠ Cls.missing ∧ d2.cls ≠ Cls.missing
          ∧ (d1.year ≠ d2.year ∨ d1.album ≠ d2.album)) →
        counts.folder_rename = none) := by
  obtain ⟨data2, k2, hsf2, hcons, _, _, _, _⟩ :=
    scan_album_folder_parts isdir decode folder files counts ops2 hscan
  rw [hsf] at hsf2
  injection hsf2 with hsf2
  injection hsf2 with hdata hsf2
  injection hsf2 with hk hops
  subst hdata
  subst hops
  constructor
  · intro p hp
    rw [hp] at hcons
    obtain ⟨d, rest, hshape, hyear, halb, hall, -, -⟩ :=
      consolidateFolder_some_plan isdir folder data p hcons
    have hdy : ∃ y, d.year = some y ∧ y ≠ "" := by
      cases hdyc : d.year with
      | none => rw [hdyc] at hyear; exact absurd rfl hyear
      | some y =>
        refine ⟨y, rfl, ?_⟩
        rw [hdyc] at hyear
        exact hyear
    obtain ⟨y, hdy1, hdy2⟩ := hdy
    have hnomiss : ∀ x ∈ data, x.cls ≠ Cls.missing := by
      intro x hx hxm
      have hinv := scanFiles_missing_inv decode folder files data k ops hsf x hx hxm
      have hx2 := (hall x hx).1
      rw [hinv.1, hdy1] at hx2
      cases hx2
    have hfilter : data.filter (fun d => d.cls != Cls.missing) = data := by
      rw [List.filter_eq_self]
      intro x hx
      simpa using hnomiss x hx
    rw [hfilter]
    refine ⟨by rw [hshape]; simp, y, d.album, hdy2, halb, ?_⟩
    intro x hx
    refine ⟨?_, (hall x hx).2⟩
    rw [(hall x hx).1, hdy1]
  · intro hdiff
    obtain ⟨d1, hd1, d2, hd2, -, -, hne⟩ := hdiff
    cases hfr : counts.folder_rename with
    | none => rfl
    | some p =>
      rw [hfr] at hcons
      obtain ⟨d, rest, hshape, hyear, halb, hall, -, -⟩ :=
        consolidateFolder_some_plan isdir folder data p hcons
      have e1 := hall d1 hd1
      have e2 := hall d2 hd2
      cases hne with
      | inl hcontra => exact absurd (e1.1.trans e2.1.symm) hcontra
      | inr hcontra => exact absurd (e1.2.trans e2.2.symm) hcontra

/-- C7: collision probing is exactly "first free or self candidate": the
loop entered with `counter = 2` returns the first element of the candidate
list `base, base (2), …, base (99)` at which no directory exists or which
is the folder itself (keeping the last candidate when every probe is
occupied, the `counter < 100` bound); in particular the base candidate is
taken when it is free, and a plan is queued only when the resolved
candidate differs from the current folder path. -/
theorem probe_characterization (isdir : String → Bool)
    (decode : String → Option RawTags) (folder base : String)
    (files : List String) (counts : FolderCounts) (ops : List (String × String))
    (o n : String) :
    (probeLoop isdir folder base 98 2 base
      = firstStopped (fun c => !isdir c || c == folder)
          (base :: (List.range' 2 98).map (suffixCand base)))
    ∧ (isdir base = false → probeLoop isdir folder base 98 2 base = base)
    ∧ (scan_album_folder isdir decode folder files = some (counts, ops) →
        counts.folder_rename = some (o, n) → o = folder ∧ n ≠ folder) := by
  refine ⟨probeLoop_eq_firstStopped isdir folder base 98 2 base, ?_, ?_⟩
  · intro hb
    rw [probeLoop_eq_firstStopped isdir folder base 98 2 base]
    rw [show List.range' 2 98 = 2 :: List.range' 3 97 from rfl, List.map_cons, firstStopped]
    rw [if_pos (by rw [hb]; rfl)]
  · intro hscan hfr
    obtain ⟨data, k, hsf, hcons, -, -, -, -⟩ :=
      scan_album_folder_parts isdir decode folder files counts ops hscan
    rw [hfr] at hcons
    obtain ⟨-, -, -, -, -, -, hp1, hp2⟩ :=
      consolidateFolder_some_plan isdir folder data (o, n) hcons
    exact ⟨hp1, hp2⟩

/-- C9: in every per-directory count and in the aggregated run summary, the
`found` counter equals `renamed + unchanged + missing`. -/
theorem counts_found_partition (isdir : String → Bool)
    (decode : String → Option RawTags) (renameOk : String → String → Bool)
    (folder : String) (files : List String) (counts : FolderCounts)
    (ops : List (String × String)) (dirs : List (String × List String))
    (res : RunResult) (trace : List Event) :
    (scan_album_folder isdir decode folder files = some (counts, ops) →
      counts.found = counts.renamed + counts.unchanged + counts.missing)
    ∧ (tags2name isdir decode renameOk dirs = some (res, trace) →
      res.found = res.renamed + res.unchanged + res.missing) := by
  constructor
  · intro hscan
    obtain ⟨data, k, hsf, -, hf, hr, hu, hm⟩ :=
      scan_album_folder_parts isdir decode folder files counts ops hscan
    have hk := scanFiles_counts decode folder files data k ops hsf
    rw [hf, hr, hu, hm]
    exact hk
  · intro hrun
    rw [tags2name] at hrun
    cases hp : runPhase1 isdir decode dirs with
    | none => rw [hp] at hrun; cases hrun
    | some v =>
      obtain ⟨res2, ops2⟩ := v
      rw [hp] at hrun
      injection hrun with hrun
      injection hrun with hres htrace
      rw [← hres]
      exact runPhase1_counts isdir decode dirs res2 ops2 hp

/-- C10: the walk root `"."` is never queued for a folder rename, whatever
the files inside it contain. -/
theorem root_never_queued (isdir : String → Bool) (decode : String → Option RawTags)
    (files : List String) (counts : FolderCounts) (ops : List (String × String))
    (h : scan_album_folder isdir decode "." files = some (counts, ops)) :
    counts.folder_rename = none := by
  obtain ⟨data, k, -, hcons, -, -, -, -⟩ :=
    scan_album_folder_parts isdir decode "." files counts ops h
  exact consolidateFolder_dot isdir data counts.folder_rename hcons

/-- C1: in every run, the event trace is all phase-1 file renames followed
by the queued folder renames, and those are attempted in exactly the
reverse of their discovery (visitation) order: no folder rename happens
until the traversal is complete. -/
theorem folder_renames_deferred_and_reversed (isdir : String → Bool)
    (decode : String → Option RawTags) (renameOk : String → String → Bool)
    (dirs : List (String × List String)) (res : RunResult) (trace : List Event)
    (h : tags2name isdir decode renameOk dirs = some (res, trace)) :
    ∃ fileOps : List (String × String),
      trace = fileOps.map (fun p => Event.fileRename p.1 p.2)
          ++ res.renamed_folders.reverse.map (applyPlan renameOk)
      ∧ (∀ e ∈ fileOps.map (fun p => Event.fileRename p.1 p.2), ∃ o2 n2, e = Event.fileRename o2 n2)
      ∧ discoveredPlans isdir decode dirs = some res.renamed_folders := by
  rw [tags2name] at h
  cases hp : runPhase1 isdir decode dirs with
  | none => rw [hp] at h; cases h
  | some v =>
    obtain ⟨res2, ops⟩ := v
    rw [hp] at h
    injection h with h
    injection h with hres htrace
    subst hres
    refine ⟨ops, htrace.symm, ?_, runPhase1_plans isdir decode dirs res2 ops hp⟩
    intro e he
    rw [List.mem_map] at he
    obtain ⟨p, -, hpe⟩ := he
    exact ⟨p.1, p.2, hpe.symm⟩

/-! ## Witnesses -/

theorem folder_renames_deferred_and_reversed_witness :
    discoveredPlans isdirNone decodeFull dirsTwo
      = some [("./A", "./[2000] Alb"), ("./A/B", "./A/[2000] Alb")] := by
  obtain ⟨t1, -, -, hplans⟩ :=
    folder_renames_deferred_and_reversed isdirNone decodeFull renameOkAll dirsTwo
      resTwo traceTwo (by decide)
  exact hplans

theorem set_tags_scrub_invariants_witness :
    ftSelf.track_num ≠ "" ∧ ftSelf.disc_num ≠ ""
      ∧ cleanTags (FileTags.scrub ftSelf) = true :=
  ⟨(set_tags_scrub_invariants rawSelf ftSelf (by decide)).1,
   (set_tags_scrub_invariants rawSelf ftSelf (by decide)).2.1,
   (set_tags_scrub_invariants rawSelf ftSelf (by decide)).2.2.2⟩

theorem scrub_idem_and_name_clean_witness :
    noForbidden (canonicalName "A" "B" ftSelf.disc_num ftSelf.track_num "T" ".mp3") = true :=
  scrub_idem_and_name_clean.2 rawSelf ftSelf "A" "B" "T" ".mp3" (by decide) (by decide)
    (Or.inr (by decide)) (by decide) (by decide)

theorem rename_file_missing_iff_witness :
    ((if pyTruthy ftNoTitle.album_artist then ftNoTitle.album_artist else ftNoTitle.artist)
        = TagVal.str (if "" ≠ "" then "" else "A"))
    ∧ ((rename_file (fun _ => some rawNoTitle) "./X" "a.mp3"
          = (RFRes.outcome none "" Cls.missing, []))
        ↔ ((if "" ≠ "" then "" else "A") = "" ∨ "B" = ""
            ∨ ftNoTitle.disc_num = "" ∨ "" = "")) :=
  rename_file_missing_iff (fun _ => some rawNoTitle) "./X" "a.mp3" ".mp3" rawNoTitle ftNoTitle
    "" "A" "B" "" (by decide) (by decide) (by decide) (by decide) (by decide) (by decide)
    (by decide) (by decide)

theorem rename_file_unchanged_no_op_witness :
    rename_file (fun _ => some rawSelf) "./X" "A - B - 1-01 - T.mp3"
      = (RFRes.outcome (oldest_year ftSelf.orig_year ftSelf.year) "B" Cls.unchanged, []) :=
  rename_file_unchanged_no_op (fun _ => some rawSelf) "./X" "A - B - 1-01 - T.mp3" ".mp3"
    rawSelf ftSelf "" "A" "B" "T" (by decide) (by decide) (by decide) (by decide) (by decide)
    (by decide) (by decide) (by decide) (by decide) (by decide)

theorem scan_consolidation_requires_agreement_witness :
    dataOne.filter (fun d => d.cls != Cls.missing) ≠ [] :=
  ((scan_consolidation_requires_agreement isdirNone decodeFull "./X" ["a.mp3"] dataOne
      ⟨1, 1, 0, 0⟩ [("./X/a.mp3", "./X/Art - Alb - 1-01 - Tit.mp3")]
      [("./X/a.mp3", "./X/Art - Alb - 1-01 - Tit.mp3")]
      ⟨1, 1, 0, 0, some ("./X", "./[2000] Alb")⟩ (by decide) (by decide)).1
    ("./X", "./[2000] Alb") (by decide)).1

theorem probe_characterization_witness :
    "./X" = "./X" ∧ "./[2000] Alb (2)" ≠ "./X" :=
  (probe_characterization isdirBusy decodeFull "./X" "./[2000] Alb" ["a.mp3"]
      ⟨1, 1, 0, 0, some ("./X", "./[2000] Alb (2)")⟩
      [("./X/a.mp3", "./X/Art - Alb - 1-01 - Tit.mp3")]
      "./X" "./[2000] Alb (2)").2.2 (by decide) (by decide)

theorem counts_found_partition_witness :
    resTwo.found = resTwo.renamed + resTwo.unchanged + resTwo.missing :=
  (counts_found_partition isdirNone decodeFull renameOkAll "./X" ["a.mp3"]
      ⟨1, 1, 0, 0, some ("./X", "./[2000] Alb")⟩
      [("./X/a.mp3", "./X/Art - Alb - 1-01 - Tit.mp3")] dirsTwo resTwo traceTwo).2
    (by decide)

theorem root_never_queued_witness :
    FolderCounts.folder_rename ⟨1, 1, 0, 0, none⟩ = none :=
  root_never_queued isdirNone decodeFull ["a.mp3"] ⟨1, 1, 0, 0, none⟩
    [("./a.mp3", "./Art - Alb - 1-01 - Tit.mp3")] (by decide)
